import Mathlib

/-!
Shallow embedding of the EMS analytics pipeline (src/ems_analytics.py).

The program cleans a raw incident table (numeric coercion with
errors='coerce', then dropna on dispatch time and borough), aggregates
per-borough statistics and compliance rates, classifies incidents into
performance buckets with pd.cut, and derives normalized comparison
scores and a correlation matrix from the merged master table.

Machine floats are idealized as exact rationals; a pandas NaN /
missing value is `Option.none`; an exception aborting the run is
`Except.error`.
-/

/-- Raw cell of a numeric CSV column: numeric text that parses to a
rational, malformed text, or a missing value. -/
inductive RawField where
  | num (q : ℚ)
  | malformed
  | missing
deriving DecidableEq, Repr

/-- Raw incident row with the fields the pipeline reads. -/
structure RawRecord where
  borough : Option String
  dispatch_raw : RawField
  incident_raw : RawField
deriving DecidableEq, Repr

/-- Embeds `pd.to_numeric(col, errors='coerce')` on one cell: a successful
parse keeps the value, a failed parse or missing cell becomes NaN (absent),
and no exception is ever raised (the function is total). -/
def toNumeric : RawField → Option ℚ
  | .num q => some q
  | .malformed => none
  | .missing => none

/-- Row of the cleaned dataset: borough and dispatch time are present,
incident time may still be NaN. -/
structure CleanRecord where
  borough : String
  dispatch : ℚ
  incident : Option ℚ
deriving DecidableEq, Repr

/-- One row of the cleaning step: coerce both numeric fields, then keep the
row only if `dispatch_response_seconds_qy` and `borough` are non-null. -/
def cleanRecord (r : RawRecord) : Option CleanRecord :=
  match r.borough, toNumeric r.dispatch_raw with
  | some b, some d => some ⟨b, d, toNumeric r.incident_raw⟩
  | _, _ => none

/-- Embeds lines 20-22: coerce the two response-time columns and
`dropna(subset=['dispatch_response_seconds_qy', 'borough'])`. -/
def clean_dataset (raws : List RawRecord) : List CleanRecord :=
  raws.filterMap cleanRecord

/-- Distinct boroughs of the cleaned dataset (the groupby keys). -/
def boroughs (ds : List CleanRecord) : List String :=
  (ds.map (·.borough)).dedup

/-- Rows of one borough's group. -/
def recs (ds : List CleanRecord) (b : String) : List CleanRecord :=
  ds.filter (fun r => r.borough == b)

/-- Mean of a list of values; NaN (absent) on an empty list, as pandas
`mean` over an empty group. -/
def meanQ (xs : List ℚ) : Option ℚ :=
  if xs = [] then none else some (xs.sum / xs.length)

/-- Insert into a sorted list (ascending). -/
def insertSorted (x : ℚ) : List ℚ → List ℚ
  | [] => [x]
  | y :: ys => if x ≤ y then x :: y :: ys else y :: insertSorted x ys

/-- Insertion sort, ascending. -/
def sortQ : List ℚ → List ℚ
  | [] => []
  | x :: xs => insertSorted x (sortQ xs)

/-- Median with linear interpolation (pandas `median`): middle element for
odd length, average of the two middle elements for even length, NaN for an
empty list. -/
def medianQ (xs : List ℚ) : Option ℚ :=
  let s := sortQ xs
  let n := s.length
  if n = 0 then none
  else if n % 2 = 1 then s.get? (n / 2)
  else match s.get? (n / 2 - 1), s.get? (n / 2) with
    | some a, some b => some ((a + b) / 2)
    | _, _ => none

/-- Round to the nearest integer, ties to even (IEEE / numpy rounding used
by pandas `.round`); `q.num / q.den` is the floor of `q`, written out so
the function evaluates by computation. -/
def roundHalfEven (q : ℚ) : ℤ :=
  let f : ℤ := q.num / (q.den : ℤ)
  if q - f < 1/2 then f
  else if 1/2 < q - f then f + 1
  else if f % 2 = 0 then f else f + 1

/-- The branches of `roundHalfEven` restated with `Int.floor`. -/
theorem roundHalfEven_def (q : ℚ) :
    roundHalfEven q =
      if q - ⌊q⌋ < 1/2 then ⌊q⌋
      else if 1/2 < q - ⌊q⌋ then ⌊q⌋ + 1
      else if ⌊q⌋ % 2 = 0 then ⌊q⌋ else ⌊q⌋ + 1 := by
  rw [Rat.floor_def]
  rfl

/-- `.round(2)`: round to two decimal places, ties to even. -/
def round2 (q : ℚ) : ℚ := (roundHalfEven (q * 100) : ℚ) / 100

/-- Dispatch times of one borough's group. -/
def dispatches (ds : List CleanRecord) (b : String) : List ℚ :=
  (recs ds b).map (·.dispatch)

/-- Incident response times of one borough's group that are present
(pandas aggregations skip NaN). -/
def incidents_present (ds : List CleanRecord) (b : String) : List ℚ :=
  (recs ds b).filterMap (·.incident)

/-- `total_calls` column: the `count` aggregation of the dispatch column,
i.e. the number of surviving rows of the group (dispatch is never NaN
after cleaning). -/
def total_calls (ds : List CleanRecord) (b : String) : ℕ :=
  (recs ds b).length

/-- `avg_dispatch_sec` column: mean dispatch time of the group, rounded. -/
def avg_dispatch_sec (ds : List CleanRecord) (b : String) : Option ℚ :=
  (meanQ (dispatches ds b)).map round2

/-- `median_dispatch_sec` column. -/
def median_dispatch_sec (ds : List CleanRecord) (b : String) : Option ℚ :=
  (medianQ (dispatches ds b)).map round2

/-- `avg_incident_sec` column: mean over the present incident times only. -/
def avg_incident_sec (ds : List CleanRecord) (b : String) : Option ℚ :=
  (meanQ (incidents_present ds b)).map round2

/-- `median_incident` column: median over the present incident times only. -/
def median_incident (ds : List CleanRecord) (b : String) : Option ℚ :=
  (medianQ (incidents_present ds b)).map round2

/-- `meets_5min`: percentage of the group's rows with dispatch ≤ 300 s,
rounded to 2 decimals; NaN for a borough with no rows. -/
def meets_5min (ds : List CleanRecord) (b : String) : Option ℚ :=
  let g := recs ds b
  if g = [] then none
  else some (round2 ((g.countP (fun r => decide (r.dispatch ≤ 300)) : ℚ) / g.length * 100))

/-- `meets_8min`: percentage of the group's rows with dispatch ≤ 480 s,
rounded to 2 decimals; NaN for a borough with no rows. -/
def meets_8min (ds : List CleanRecord) (b : String) : Option ℚ :=
  let g := recs ds b
  if g = [] then none
  else some (round2 ((g.countP (fun r => decide (r.dispatch ≤ 480)) : ℚ) / g.length * 100))

/-- `extreme_delays`: number of the group's rows with dispatch > 600 s. -/
def extreme_delays (ds : List CleanRecord) (b : String) : ℕ :=
  (recs ds b).countP (fun r => decide (600 < r.dispatch))

/-- The four labels of `pd.cut(..., labels=[...])`. -/
inductive PerfBucket where
  | excellent
  | good
  | poor
  | critical
deriving DecidableEq, Repr

/-- Embeds `pd.cut(x, bins=[0, 300, 480, 600, inf])` with the default
`right=True`, `include_lowest=False`: the intervals are (0,300],
(300,480], (480,600], (600,inf], and a value ≤ 0 falls in no interval
and becomes NaN. -/
def perf_bucket (d : ℚ) : Option PerfBucket :=
  if d ≤ 0 then none
  else if d ≤ 300 then some .excellent
  else if d ≤ 480 then some .good
  else if d ≤ 600 then some .poor
  else some .critical

/-- `bucket_counts` table: `value_counts` of the bucket column over the
whole cleaned dataset (NaN buckets are not counted). -/
def bucket_counts (ds : List CleanRecord) (b : PerfBucket) : ℕ :=
  ds.countP (fun r => perf_bucket r.dispatch == some b)

/-- Numerator of the per-borough bucket-share crosstab: the number of the
borough's rows landing in the given bucket. -/
def bucket_counts_region (ds : List CleanRecord) (R : String) (b : PerfBucket) : ℕ :=
  (recs ds R).countP (fun r => perf_bucket r.dispatch == some b)

/-- Minimum of a list of rationals (`Series.min`); NaN on empty. -/
def listMin : List ℚ → Option ℚ
  | [] => none
  | x :: xs =>
    some (match listMin xs with
      | none => x
      | some m => min x m)

/-- Maximum of a list of rationals (`Series.max`); NaN on empty. -/
def listMax : List ℚ → Option ℚ
  | [] => none
  | x :: xs =>
    some (match listMax xs with
      | none => x
      | some m => max x m)

/-- Column `avg_dispatch_sec` of the master table, one entry per borough
(always present for a borough of the table; `getD` is never hit). -/
def col_avg (ds : List CleanRecord) : List ℚ :=
  (boroughs ds).map (fun b => (avg_dispatch_sec ds b).getD 0)

/-- Column `total_calls` of the master table. -/
def col_calls (ds : List CleanRecord) : List ℚ :=
  (boroughs ds).map (fun b => (total_calls ds b : ℚ))

/-- Column `meets_5min` of the master table. -/
def col_m5 (ds : List CleanRecord) : List ℚ :=
  (boroughs ds).map (fun b => (meets_5min ds b).getD 0)

/-- Column `meets_8min` of the master table. -/
def col_m8 (ds : List CleanRecord) : List ℚ :=
  (boroughs ds).map (fun b => (meets_8min ds b).getD 0)

/-- Column `extreme_delays` of the master table. -/
def col_extreme (ds : List CleanRecord) : List ℚ :=
  (boroughs ds).map (fun b => (extreme_delays ds b : ℚ))

/-- Embeds lines 255-256: `speed_score = 100 - ((row_avg - min) /
(max - min) * 100)`. There is no guard on a zero range: when every
borough has the same rounded mean, the float computation is 0/0 = NaN,
modelled as `none`. -/
def speed_score (ds : List CleanRecord) (b : String) : Option ℚ :=
  match avg_dispatch_sec ds b, listMin (col_avg ds), listMax (col_avg ds) with
  | some a, some mn, some mx =>
      if mx - mn = 0 then none else some (100 - (a - mn) / (mx - mn) * 100)
  | _, _, _ => none

/-- Embeds line 258: `100 - (row_extreme / max_extreme * 100) if
max_extreme > 0 else 100`. -/
def reliability_score (ds : List CleanRecord) (b : String) : Option ℚ :=
  match listMax (col_extreme ds) with
  | some mx =>
      if 0 < mx then some (100 - (extreme_delays ds b : ℚ) / mx * 100)
      else some 100
  | none => none

/-- Unnormalized covariance `n·Σxy − Σx·Σy`; the Pearson correlation of
x and y is `covZ x y / sqrt (varZ x · varZ y)`, so scaling by the common
factor cancels. -/
def covZ (xs ys : List ℚ) : ℚ :=
  (xs.length : ℚ) * (List.zipWith (· * ·) xs ys).sum - xs.sum * ys.sum

/-- Unnormalized variance `n·Σx² − (Σx)²`. -/
def varZ (xs : List ℚ) : ℚ := covZ xs xs

/-- Pearson correlation entry, kept in exact form: `some (c, d)` stands
for the real number `c / sqrt d`; `none` is the NaN that pandas `corr`
produces when either column has zero variance. -/
def pearson (xs ys : List ℚ) : Option (ℚ × ℚ) :=
  if varZ xs = 0 ∨ varZ ys = 0 then none
  else some (covZ xs ys, varZ xs * varZ ys)

/-- The five master-table columns passed to `.corr()` at line 279. -/
def masterCol (ds : List CleanRecord) : Fin 5 → List ℚ :=
  ![col_avg ds, col_calls ds, col_m5 ds, col_m8 ds, col_extreme ds]

/-- Embeds line 279: the 5×5 Pearson correlation matrix of the master
table. -/
def corr_matrix (ds : List CleanRecord) (i j : Fin 5) : Option (ℚ × ℚ) :=
  pearson (masterCol ds i) (masterCol ds j)

/-- `Series.idxmax`: position of the first maximum; raises `ValueError`
on an empty series. -/
def idxmax (xs : List ℚ) : Except String ℕ :=
  match listMax xs with
  | none => .error "attempt to get argmax of an empty sequence"
  | some m => .ok (xs.findIdx (fun a => a == m))

/-- `Series.idxmin`: position of the first minimum; raises `ValueError`
on an empty series. -/
def idxmin (xs : List ℚ) : Except String ℕ :=
  match listMin xs with
  | none => .error "attempt to get argmin of an empty sequence"
  | some m => .ok (xs.findIdx (fun a => a == m))

/-- One row of the master table (borough_stats merged with
performance_metrics on `borough`). -/
structure MasterRow where
  borough : String
  avg_dispatch_sec : Option ℚ
  median_dispatch_sec : Option ℚ
  total_calls : ℕ
  avg_incident_sec : Option ℚ
  median_incident : Option ℚ
  meets_5min : Option ℚ
  meets_8min : Option ℚ
  extreme_delays : ℕ
deriving DecidableEq, Repr

/-- Build one master row for a borough. -/
def master_row (ds : List CleanRecord) (b : String) : MasterRow :=
  ⟨b, avg_dispatch_sec ds b, median_dispatch_sec ds b, total_calls ds b,
   avg_incident_sec ds b, median_incident ds b,
   meets_5min ds b, meets_8min ds b, extreme_delays ds b⟩

/-- The master table: one row per distinct borough. -/
def master_data (ds : List CleanRecord) : List MasterRow :=
  (boroughs ds).map (master_row ds)

/-- The tables the run hands to the presentation layer. -/
structure Report where
  master : List MasterRow
  buckets : List (PerfBucket × ℕ)
  total : ℕ
  best_borough : String
  worst_borough : String
  busiest_borough : String
deriving DecidableEq, Repr

/-- Assemble the report from a cleaned dataset, in the source's order:
the master table, the bucket counts, the citywide totals, then the
best/worst/busiest borough picks of lines 90-92, which go through
`idxmax`/`idxmin` and therefore abort on an empty master table. -/
def build_report (ds : List CleanRecord) : Except String Report := do
  let md := master_data ds
  let bi ← idxmax (md.map (fun row => row.meets_8min.getD 0))
  let wi ← idxmin (md.map (fun row => row.meets_8min.getD 0))
  let ci ← idxmax (md.map (fun row => (row.total_calls : ℚ)))
  .ok ⟨md,
      [(.excellent, bucket_counts ds .excellent), (.good, bucket_counts ds .good),
       (.poor, bucket_counts ds .poor), (.critical, bucket_counts ds .critical)],
      ds.length,
      ((md.get? bi).map (·.borough)).getD "",
      ((md.get? wi).map (·.borough)).getD "",
      ((md.get? ci).map (·.borough)).getD ""⟩

/-- The whole run: clean the raw table, then build every aggregate from
the cleaned dataset only. -/
def analyze (raws : List RawRecord) : Except String Report :=
  build_report (clean_dataset raws)

/-! Helper lemmas about rounding, list extrema and grouping. -/

/-- Rounding half-to-even is monotone. -/
theorem roundHalfEven_mono {a b : ℚ} (hab : a ≤ b) :
    roundHalfEven a ≤ roundHalfEven b := by
  rw [roundHalfEven_def, roundHalfEven_def]
  have hf : ⌊a⌋ ≤ ⌊b⌋ := Int.floor_mono hab
  rcases lt_or_eq_of_le hf with hlt | heq
  · have h1 : ⌊a⌋ + 1 ≤ ⌊b⌋ := hlt
    have h2 : (⌊b⌋ : ℚ) ≤ b := Int.floor_le b
    split_ifs <;> omega
  · rw [heq]
    split_ifs <;> first | omega | linarith

/-- `.round(2)` is monotone. -/
theorem round2_mono {a b : ℚ} (hab : a ≤ b) : round2 a ≤ round2 b := by
  unfold round2
  have h1 : roundHalfEven (a * 100) ≤ roundHalfEven (b * 100) :=
    roundHalfEven_mono (by linarith)
  have h2 : ((roundHalfEven (a * 100) : ℚ)) ≤ (roundHalfEven (b * 100) : ℚ) := by
    exact_mod_cast h1
  linarith

/-- `listMin` is `none` exactly on the empty list. -/
theorem listMin_eq_none {l : List ℚ} : listMin l = none ↔ l = [] := by
  cases l <;> simp [listMin]

/-- `listMax` is `none` exactly on the empty list. -/
theorem listMax_eq_none {l : List ℚ} : listMax l = none ↔ l = [] := by
  cases l <;> simp [listMax]

/-- The minimum of a list bounds every element from below. -/
theorem listMin_le {l : List ℚ} :
    ∀ {m : ℚ}, listMin l = some m → ∀ a ∈ l, m ≤ a := by
  induction l with
  | nil => intro m h; simp [listMin] at h
  | cons x xs ih =>
    intro m h a ha
    cases hxs : listMin xs with
    | none =>
      have hnil : xs = [] := listMin_eq_none.mp hxs
      subst hnil
      simp [listMin] at h
      subst h
      simp at ha
      subst ha
      exact le_refl _
    | some mm =>
      simp [listMin, hxs] at h
      subst h
      rcases List.mem_cons.mp ha with rfl | hmem
      · exact min_le_left _ _
      · exact le_trans (min_le_right _ _) (ih hxs a hmem)

/-- The maximum of a list bounds every element from above. -/
theorem le_listMax {l : List ℚ} :
    ∀ {m : ℚ}, listMax l = some m → ∀ a ∈ l, a ≤ m := by
  induction l with
  | nil => intro m h; simp [listMax] at h
  | cons x xs ih =>
    intro m h a ha
    cases hxs : listMax xs with
    | none =>
      have hnil : xs = [] := listMax_eq_none.mp hxs
      subst hnil
      simp [listMax] at h
      subst h
      simp at ha
      subst ha
      exact le_refl _
    | some mm =>
      simp [listMax, hxs] at h
      subst h
      rcases List.mem_cons.mp ha with rfl | hmem
      · exact le_max_left _ _
      · exact le_trans (ih hxs a hmem) (le_max_right _ _)

/-- The maximum of a nonempty list is one of its elements. -/
theorem listMax_mem {l : List ℚ} :
    ∀ {m : ℚ}, listMax l = some m → m ∈ l := by
  induction l with
  | nil => intro m h; simp [listMax] at h
  | cons x xs ih =>
    intro m h
    cases hxs : listMax xs with
    | none =>
      simp [listMax, hxs] at h
      subst h
      exact List.mem_cons_self _ _
    | some mm =>
      simp [listMax, hxs] at h
      subst h
      rcases le_total x mm with hle | hle
      · rw [max_eq_right hle]
        exact List.mem_cons_of_mem _ (ih hxs)
      · rw [max_eq_left hle]
        exact List.mem_cons_self _ _

/-- Membership in the borough key list. -/
theorem mem_boroughs {ds : List CleanRecord} {b : String} :
    b ∈ boroughs ds ↔ ∃ r ∈ ds, r.borough = b := by
  simp [boroughs, List.mem_dedup, List.mem_map, eq_comm]

/-- A borough of the key list has a nonempty group. -/
theorem recs_ne_nil {ds : List CleanRecord} {b : String} (h : b ∈ boroughs ds) :
    recs ds b ≠ [] := by
  obtain ⟨r, hr, hrb⟩ := mem_boroughs.mp h
  have : r ∈ recs ds b := by
    simp [recs, List.mem_filter, hr, hrb]
  exact List.ne_nil_of_mem this

/-! Bucket classification lemmas. -/

/-- A positive dispatch time lands in the first bucket iff it is ≤ 300 s. -/
theorem perf_bucket_excellent_iff {d : ℚ} (hd : 0 < d) :
    perf_bucket d = some .excellent ↔ d ≤ 300 := by
  unfold perf_bucket
  split_ifs with h0 h300 h480 h600 <;> simp_all <;> linarith

/-- A positive dispatch time lands in one of the first two buckets iff it
is ≤ 480 s. -/
theorem perf_bucket_le480_iff {d : ℚ} (hd : 0 < d) :
    (perf_bucket d = some .excellent ∨ perf_bucket d = some .good) ↔ d ≤ 480 := by
  unfold perf_bucket
  split_ifs with h0 h300 h480 h600 <;> simp_all <;> linarith

/-- The four bucket counts add up to the number of rows with positive
dispatch time. -/
theorem bucket_counts_sum (ds : List CleanRecord) :
    bucket_counts ds .excellent + bucket_counts ds .good + bucket_counts ds .poor +
        bucket_counts ds .critical
      = ds.countP (fun r => decide (0 < r.dispatch)) := by
  induction ds with
  | nil => rfl
  | cons r ds ih =>
    simp only [bucket_counts, List.countP_cons] at *
    by_cases h0 : r.dispatch ≤ 0
    · have hpb : perf_bucket r.dispatch = none := by simp [perf_bucket, h0]
      simp [hpb, not_lt.mpr h0]
      omega
    · have hd : 0 < r.dispatch := not_le.mp h0
      by_cases h300 : r.dispatch ≤ 300
      · have hpb : perf_bucket r.dispatch = some .excellent := by
          simp [perf_bucket, h0, h300]
        simp [hpb, hd]
        omega
      · by_cases h480 : r.dispatch ≤ 480
        · have hpb : perf_bucket r.dispatch = some .good := by
            simp [perf_bucket, h0, h300, h480]
          simp [hpb, hd]
          omega
        · by_cases h600 : r.dispatch ≤ 600
          · have hpb : perf_bucket r.dispatch = some .poor := by
              simp [perf_bucket, h0, h300, h480, h600]
            simp [hpb, hd]
            omega
          · have hpb : perf_bucket r.dispatch = some .critical := by
              simp [perf_bucket, h0, h300, h480, h600]
            simp [hpb, hd]
            omega

/-- On an all-positive dataset, the first bucket counts exactly the rows
within 300 s and the first two buckets exactly the rows within 480 s. -/
theorem bucket_count_eq_meets_count (ds : List CleanRecord)
    (hpos : ∀ r ∈ ds, 0 < r.dispatch) :
    bucket_counts ds .excellent = ds.countP (fun r => decide (r.dispatch ≤ 300)) ∧
    bucket_counts ds .excellent + bucket_counts ds .good
      = ds.countP (fun r => decide (r.dispatch ≤ 480)) := by
  induction ds with
  | nil => exact ⟨rfl, rfl⟩
  | cons r ds ih =>
    have hd : 0 < r.dispatch := hpos r (List.mem_cons_self _ _)
    have h0 : ¬ r.dispatch ≤ 0 := not_le.mpr hd
    obtain ⟨ih1, ih2⟩ := ih (fun x hx => hpos x (List.mem_cons_of_mem _ hx))
    simp only [bucket_counts, List.countP_cons] at *
    by_cases h300 : r.dispatch ≤ 300
    · have h480 : r.dispatch ≤ 480 := by linarith
      have hpb : perf_bucket r.dispatch = some .excellent := by
        simp [perf_bucket, h0, h300]
      constructor <;> simp [hpb, h300, h480, ih1, ih2] <;> omega
    · by_cases h480 : r.dispatch ≤ 480
      · have hpb : perf_bucket r.dispatch = some .good := by
          simp [perf_bucket, h0, h300, h480]
        constructor <;> simp [hpb, h300, h480, ih1, ih2] <;> omega
      · by_cases h600 : r.dispatch ≤ 600
        · have hpb : perf_bucket r.dispatch = some .poor := by
            simp [perf_bucket, h0, h300, h480, h600]
          constructor <;> simp [hpb, h300, h480, ih1, ih2] <;> omega
        · have hpb : perf_bucket r.dispatch = some .critical := by
            simp [perf_bucket, h0, h300, h480, h600]
          constructor <;> simp [hpb, h300, h480, ih1, ih2] <;> omega

/-! Concrete datasets used to exhibit behaviour at specific inputs. -/

/-- One surviving record whose dispatch time is exactly 0. -/
def raws_zero_dispatch : List RawRecord := [⟨some "BRONX", .num 0, .missing⟩]

/-- Small dataset with all-positive dispatch times: BRONX 200 s and
400 s, QUEENS 700 s, plus two rows that cleaning drops. -/
def raws_demo : List RawRecord :=
  [⟨some "BRONX", .num 200, .missing⟩, ⟨some "BRONX", .num 400, .num 500⟩,
   ⟨some "QUEENS", .num 700, .malformed⟩, ⟨none, .num 100, .num 1⟩,
   ⟨some "QUEENS", .malformed, .num 2⟩]

/-- Claim C1, counterexample: the record (BRONX, dispatch 0) survives
cleaning, but `pd.cut` assigns it to no bucket (its category is NaN), so
the four bucket counts sum to 0 while one record survives — the claim
that every surviving record, including one with dispatch 0, is bucketed
is false on the code. -/
theorem bucket_zero_record_unbucketed :
    clean_dataset raws_zero_dispatch = [⟨"BRONX", 0, none⟩] ∧
    perf_bucket (0 : ℚ) = none ∧
    bucket_counts (clean_dataset raws_zero_dispatch) .excellent +
        bucket_counts (clean_dataset raws_zero_dispatch) .good +
        bucket_counts (clean_dataset raws_zero_dispatch) .poor +
        bucket_counts (clean_dataset raws_zero_dispatch) .critical = 0 ∧
    (clean_dataset raws_zero_dispatch).length = 1 := by
  refine ⟨rfl, ?_, rfl, rfl⟩
  simp [perf_bucket]

/-- Claim C1, amended: every surviving record with positive dispatch time
is assigned to exactly one of the four buckets, a surviving record with
dispatch time ≤ 0 is assigned to no bucket, and the four bucket counts
sum to the number of surviving records with positive dispatch time. -/
theorem bucket_partition (raws : List RawRecord) :
    (∀ r ∈ clean_dataset raws, 0 < r.dispatch →
        ∃! b : PerfBucket, perf_bucket r.dispatch = some b) ∧
    (∀ r ∈ clean_dataset raws, r.dispatch ≤ 0 → perf_bucket r.dispatch = none) ∧
    bucket_counts (clean_dataset raws) .excellent + bucket_counts (clean_dataset raws) .good +
        bucket_counts (clean_dataset raws) .poor + bucket_counts (clean_dataset raws) .critical
      = (clean_dataset raws).countP (fun r => decide (0 < r.dispatch)) := by
  refine ⟨?_, ?_, bucket_counts_sum _⟩
  · intro r _ hd
    have hsome : (perf_bucket r.dispatch).isSome := by
      unfold perf_bucket
      split_ifs with h0 h300 h480 h600 <;> simp_all <;> linarith
    obtain ⟨b, hb⟩ := Option.isSome_iff_exists.mp hsome
    exact ⟨b, hb, fun y hy => by rw [hb] at hy; exact (Option.some.inj hy).symm⟩
  · intro r _ h0
    simp [perf_bucket, h0]

/-- Witness for the amended claim C1 at a concrete dataset. -/
theorem bucket_partition_witness :
    (∃! b : PerfBucket, perf_bucket ((200 : ℚ)) = some b) ∧
    bucket_counts (clean_dataset raws_demo) .excellent +
        bucket_counts (clean_dataset raws_demo) .good +
        bucket_counts (clean_dataset raws_demo) .poor +
        bucket_counts (clean_dataset raws_demo) .critical
      = (clean_dataset raws_demo).countP (fun r => decide (0 < r.dispatch)) := by
  constructor
  · exact (bucket_partition raws_demo).1 ⟨"BRONX", 200, none⟩
      (by simp [clean_dataset, raws_demo, cleanRecord, toNumeric]) (by norm_num)
  · exact (bucket_partition raws_demo).2.2

/-- Claim C4: bucket classification and the compliance rates share one
boundary convention: a positive dispatch time is in the first bucket iff
it is ≤ 300 s (the `meets_5min` predicate) and in one of the first two
buckets iff it is ≤ 480 s (the `meets_8min` predicate), and consequently
the bucket-count table and the per-borough crosstab numerators both
count exactly the rows those predicates count. -/
theorem bucket_compliance_consistent (d : ℚ) (hd : 0 < d) :
    (perf_bucket d = some .excellent ↔ d ≤ 300) ∧
    ((perf_bucket d = some .excellent ∨ perf_bucket d = some .good) ↔ d ≤ 480) ∧
    (∀ ds : List CleanRecord, (∀ r ∈ ds, 0 < r.dispatch) →
        bucket_counts ds .excellent = ds.countP (fun r => decide (r.dispatch ≤ 300)) ∧
        bucket_counts ds .excellent + bucket_counts ds .good
          = ds.countP (fun r => decide (r.dispatch ≤ 480))) ∧
    (∀ ds : List CleanRecord, ∀ R : String, (∀ r ∈ recs ds R, 0 < r.dispatch) →
        bucket_counts_region ds R .excellent
          = (recs ds R).countP (fun r => decide (r.dispatch ≤ 300)) ∧
        bucket_counts_region ds R .excellent + bucket_counts_region ds R .good
          = (recs ds R).countP (fun r => decide (r.dispatch ≤ 480))) :=
  ⟨perf_bucket_excellent_iff hd, perf_bucket_le480_iff hd,
   fun ds h => bucket_count_eq_meets_count ds h,
   fun ds R h => bucket_count_eq_meets_count (recs ds R) h⟩

/-- Witness for claim C4 at dispatch 200 s and a concrete dataset. -/
theorem bucket_compliance_consistent_witness :
    (perf_bucket (200 : ℚ) = some .excellent ↔ (200 : ℚ) ≤ 300) ∧
    bucket_counts_region (clean_dataset raws_demo) "BRONX" .excellent
      = (recs (clean_dataset raws_demo) "BRONX").countP
          (fun r => decide (r.dispatch ≤ 300)) := by
  have h := bucket_compliance_consistent (200 : ℚ) (by norm_num)
  refine ⟨h.1, (h.2.2.2 (clean_dataset raws_demo) "BRONX" ?_).1⟩
  intro r hr
  fin_cases hr <;> norm_num

/-- Claim C3: for every borough of the master table the 5-minute
compliance rate is at most the 8-minute compliance rate. -/
theorem meets_5min_le_meets_8min (ds : List CleanRecord) (b : String)
    (hb : b ∈ boroughs ds) :
    ∃ p q : ℚ, meets_5min ds b = some p ∧ meets_8min ds b = some q ∧ p ≤ q := by
  have hne : recs ds b ≠ [] := recs_ne_nil hb
  have hlen : (0 : ℚ) < ((recs ds b).length : ℚ) := by
    have h := List.length_pos.mpr hne
    exact_mod_cast h
  have hcount : (recs ds b).countP (fun r => decide (r.dispatch ≤ 300))
      ≤ (recs ds b).countP (fun r => decide (r.dispatch ≤ 480)) := by
    apply List.countP_mono_left
    intro r _ h
    simp only [decide_eq_true_eq] at h ⊢
    linarith
  have h5 : meets_5min ds b
      = some (round2 (((recs ds b).countP (fun r => decide (r.dispatch ≤ 300)) : ℚ)
          / (recs ds b).length * 100)) := by
    simp [meets_5min, hne]
  have h8 : meets_8min ds b
      = some (round2 (((recs ds b).countP (fun r => decide (r.dispatch ≤ 480)) : ℚ)
          / (recs ds b).length * 100)) := by
    simp [meets_8min, hne]
  refine ⟨_, _, h5, h8, round2_mono ?_⟩
  have hc : (((recs ds b).countP (fun r => decide (r.dispatch ≤ 300))) : ℚ)
      ≤ (((recs ds b).countP (fun r => decide (r.dispatch ≤ 480))) : ℚ) := by
    exact_mod_cast hcount
  have hdiv : (((recs ds b).countP (fun r => decide (r.dispatch ≤ 300))) : ℚ)
        / (recs ds b).length
      ≤ (((recs ds b).countP (fun r => decide (r.dispatch ≤ 480))) : ℚ)
        / (recs ds b).length := by
    rw [div_le_div_iff hlen hlen]
    exact mul_le_mul_of_nonneg_right hc hlen.le
  linarith

/-- Witness for claim C3: BRONX in the demo dataset, where the rates
are 50 and 100. -/
theorem meets_5min_le_meets_8min_witness :
    ∃ p q : ℚ, meets_5min (clean_dataset raws_demo) "BRONX" = some p ∧
      meets_8min (clean_dataset raws_demo) "BRONX" = some q ∧ p ≤ q := by
  apply meets_5min_le_meets_8min
  simp [boroughs, clean_dataset, raws_demo, cleanRecord, toNumeric]

/-- Claim C6: when cleaning leaves no record at all, the run aborts (the
`idxmax` of line 90 raises on the empty master column) instead of
producing a report. -/
theorem empty_clean_dataset_aborts (raws : List RawRecord)
    (h : clean_dataset raws = []) :
    analyze raws = .error "attempt to get argmax of an empty sequence" := by
  unfold analyze
  rw [h]
  rfl

/-- Witness for claim C6: a single row whose borough is missing is
dropped by cleaning and the run aborts. -/
theorem empty_clean_dataset_aborts_witness :
    analyze [⟨none, .num 100, .missing⟩] = .error "attempt to get argmax of an empty sequence" :=
  empty_clean_dataset_aborts _ rfl

/-- Claim C7: numeric coercion is total — a malformed cell coerces to the
absent value rather than an error — and a record whose dispatch time or
borough is absent after coercion is dropped by cleaning and therefore
invisible to every aggregate: the whole report is unchanged when such a
record is removed from the input. -/
theorem coercion_totality_and_silent_exclusion (l1 l2 : List RawRecord) (r : RawRecord)
    (h : toNumeric r.dispatch_raw = none ∨ r.borough = none) :
    toNumeric .malformed = none ∧
    clean_dataset (l1 ++ r :: l2) = clean_dataset (l1 ++ l2) ∧
    analyze (l1 ++ r :: l2) = analyze (l1 ++ l2) := by
  have hnone : cleanRecord r = none := by
    rcases h with h | h
    · cases hb : r.borough <;> simp [cleanRecord, hb, h]
    · simp [cleanRecord, h]
  have hclean : clean_dataset (l1 ++ r :: l2) = clean_dataset (l1 ++ l2) := by
    unfold clean_dataset
    rw [List.filterMap_append, List.filterMap_append]
    simp [List.filterMap_cons, hnone]
  exact ⟨rfl, hclean, by unfold analyze; rw [hclean]⟩

/-- Witness for claim C7: inserting a QUEENS row with malformed dispatch
text changes nothing. -/
theorem coercion_totality_and_silent_exclusion_witness :
    toNumeric .malformed = none ∧
    clean_dataset ([⟨some "BRONX", .num 200, .missing⟩] ++
        ⟨some "QUEENS", .malformed, .num 3⟩ :: [⟨some "QUEENS", .num 700, .missing⟩])
      = clean_dataset ([⟨some "BRONX", .num 200, .missing⟩] ++
          [⟨some "QUEENS", .num 700, .missing⟩]) ∧
    analyze ([⟨some "BRONX", .num 200, .missing⟩] ++
        ⟨some "QUEENS", .malformed, .num 3⟩ :: [⟨some "QUEENS", .num 700, .missing⟩])
      = analyze ([⟨some "BRONX", .num 200, .missing⟩] ++
          [⟨some "QUEENS", .num 700, .missing⟩]) :=
  coercion_totality_and_silent_exclusion _ _ _ (Or.inl rfl)

/-- Claim C10: a raw record whose borough and dispatch time parse but
whose incident time fails to parse survives cleaning, is counted in the
borough's `total_calls`, and leaves the incident-time mean and median
unchanged (they are computed over present incident values only). -/
theorem absent_incident_still_counted (raws : List RawRecord) (r : RawRecord)
    (b : String) (d : ℚ) (hb : r.borough = some b)
    (hd : toNumeric r.dispatch_raw = some d) (hi : toNumeric r.incident_raw = none) :
    (⟨b, d, none⟩ : CleanRecord) ∈ clean_dataset (raws ++ [r]) ∧
    total_calls (clean_dataset (raws ++ [r])) b = total_calls (clean_dataset raws) b + 1 ∧
    avg_incident_sec (clean_dataset (raws ++ [r])) b = avg_incident_sec (clean_dataset raws) b ∧
    median_incident (clean_dataset (raws ++ [r])) b = median_incident (clean_dataset raws) b := by
  have hcr : cleanRecord r = some ⟨b, d, none⟩ := by
    simp [cleanRecord, hb, hd, hi]
  have hds : clean_dataset (raws ++ [r]) = clean_dataset raws ++ [⟨b, d, none⟩] := by
    unfold clean_dataset
    rw [List.filterMap_append]
    simp [hcr]
  have hrecs : recs (clean_dataset (raws ++ [r])) b
      = recs (clean_dataset raws) b ++ [⟨b, d, none⟩] := by
    rw [hds]
    unfold recs
    rw [List.filter_append]
    simp
  have hinc : incidents_present (clean_dataset (raws ++ [r])) b
      = incidents_present (clean_dataset raws) b := by
    unfold incidents_present
    rw [hrecs, List.filterMap_append]
    simp
  refine ⟨?_, ?_, ?_, ?_⟩
  · rw [hds]
    exact List.mem_append_right _ (List.mem_singleton.mpr rfl)
  · unfold total_calls
    rw [hrecs, List.length_append]
    rfl
  · unfold avg_incident_sec
    rw [hinc]
  · unfold median_incident
    rw [hinc]

/-- Witness for claim C10 at a concrete record with malformed incident
text. -/
theorem absent_incident_still_counted_witness :
    (⟨"QUEENS", 700, none⟩ : CleanRecord)
        ∈ clean_dataset (raws_demo ++ [⟨some "QUEENS", .num 700, .malformed⟩]) ∧
    total_calls (clean_dataset (raws_demo ++ [⟨some "QUEENS", .num 700, .malformed⟩])) "QUEENS"
      = total_calls (clean_dataset raws_demo) "QUEENS" + 1 ∧
    avg_incident_sec (clean_dataset (raws_demo ++ [⟨some "QUEENS", .num 700, .malformed⟩])) "QUEENS"
      = avg_incident_sec (clean_dataset raws_demo) "QUEENS" ∧
    median_incident (clean_dataset (raws_demo ++ [⟨some "QUEENS", .num 700, .malformed⟩])) "QUEENS"
      = median_incident (clean_dataset raws_demo) "QUEENS" :=
  absent_incident_still_counted raws_demo _ "QUEENS" 700 rfl rfl rfl

/-- Claim C8: when no surviving incident exceeds 600 s, every borough of
the master table gets reliability score 100 (the guard of line 258 takes
its `else 100` branch instead of dividing by the zero maximum). -/
theorem reliability_100_when_no_extreme (raws : List RawRecord) (b : String)
    (hb : b ∈ boroughs (clean_dataset raws))
    (h : ∀ r ∈ clean_dataset raws, r.dispatch ≤ 600) :
    reliability_score (clean_dataset raws) b = some 100 := by
  have hz : ∀ c : String, extreme_delays (clean_dataset raws) c = 0 := by
    intro c
    unfold extreme_delays
    apply List.countP_eq_zero.mpr
    intro r hr
    have hmem : r ∈ clean_dataset raws := List.mem_of_mem_filter hr
    simp only [decide_eq_true_eq]
    exact not_lt.mpr (h r hmem)
  have hcol : ∀ x ∈ col_extreme (clean_dataset raws), x = 0 := by
    intro x hx
    obtain ⟨c, _, rfl⟩ := List.mem_map.mp hx
    rw [hz c]
    rfl
  have hne : col_extreme (clean_dataset raws) ≠ [] := by
    unfold col_extreme
    exact List.ne_nil_of_mem (List.mem_map_of_mem _ hb)
  cases hmx : listMax (col_extreme (clean_dataset raws)) with
  | none => exact absurd (listMax_eq_none.mp hmx) hne
  | some m =>
    have hm0 : m = 0 := hcol m (listMax_mem hmx)
    unfold reliability_score
    rw [hmx, hm0]
    norm_num

/-- Witness for claim C8: one borough, one 100 s incident. -/
theorem reliability_100_when_no_extreme_witness :
    reliability_score (clean_dataset [⟨some "BRONX", .num 100, .missing⟩]) "BRONX"
      = some 100 := by
  apply reliability_100_when_no_extreme
  · simp [boroughs, clean_dataset, cleanRecord, toNumeric]
  · intro r hr
    fin_cases hr
    norm_num

/-- Claim C9: when the master table holds at least two distinct mean
dispatch times, the borough whose mean is the minimum gets speed score
100 and the borough whose mean is the maximum gets 0. -/
theorem speed_score_min_max (ds : List CleanRecord) (bmin bmax : String) (mn mx : ℚ)
    (h1 : avg_dispatch_sec ds bmin = some mn) (h2 : listMin (col_avg ds) = some mn)
    (h3 : avg_dispatch_sec ds bmax = some mx) (h4 : listMax (col_avg ds) = some mx)
    (hdist : ∃ a ∈ col_avg ds, ∃ c ∈ col_avg ds, a ≠ c) :
    speed_score ds bmin = some 100 ∧ speed_score ds bmax = some 0 := by
  obtain ⟨a, ha, c, hc, hac⟩ := hdist
  have hne : mx - mn ≠ 0 := by
    intro h0
    apply hac
    have h5 := listMin_le h2 a ha
    have h6 := listMin_le h2 c hc
    have h7 := le_listMax h4 a ha
    have h8 := le_listMax h4 c hc
    linarith
  constructor
  · unfold speed_score
    rw [h1, h2, h4]
    show (if mx - mn = 0 then none else some (100 - (mn - mn) / (mx - mn) * 100)) = some 100
    rw [if_neg hne]
    norm_num
  · unfold speed_score
    rw [h3, h2, h4]
    show (if mx - mn = 0 then none else some (100 - (mx - mn) / (mx - mn) * 100)) = some 0
    rw [if_neg hne, div_self hne]
    norm_num

/-- Witness for claim C9 on the demo dataset: BRONX (mean 300) scores
100, QUEENS (mean 700) scores 0. -/
theorem speed_score_min_max_witness :
    speed_score (clean_dataset raws_demo) "BRONX" = some 100 ∧
    speed_score (clean_dataset raws_demo) "QUEENS" = some 0 := by
  have hcol : col_avg (clean_dataset raws_demo) = [300, 700] := by
    simp [col_avg, boroughs, clean_dataset, raws_demo, cleanRecord, toNumeric,
      avg_dispatch_sec, meanQ, dispatches, recs]
    norm_num [round2, roundHalfEven]
  apply speed_score_min_max (clean_dataset raws_demo) "BRONX" "QUEENS" 300 700
  · simp [avg_dispatch_sec, meanQ, dispatches, recs, clean_dataset, raws_demo,
      cleanRecord, toNumeric]
    norm_num [round2, roundHalfEven]
  · rw [hcol]
    norm_num [listMin]
  · simp [avg_dispatch_sec, meanQ, dispatches, recs, clean_dataset, raws_demo,
      cleanRecord, toNumeric]
    norm_num [round2, roundHalfEven]
  · rw [hcol]
    norm_num [listMax]
  · rw [hcol]
    exact ⟨300, by norm_num, 700, by norm_num, by norm_num⟩

/-- Two boroughs with the same dispatch time, hence the same mean. -/
def raws_equal_means : List RawRecord :=
  [⟨some "QUEENS", .num 300, .missing⟩, ⟨some "BRONX", .num 300, .missing⟩]

/-- Claim C2, refuting theorem: with every borough sharing the same mean
dispatch time, line 255 computes `(avg - min) / (max - min) * 100` with
a zero denominator — in floats 0/0 = NaN — so the speed score is the
undefined value, not a number in [0, 100]: the degenerate case the spec
requires (normalized range defined as 0) is not handled by the code. -/
theorem speed_score_nan_on_equal_means :
    avg_dispatch_sec (clean_dataset raws_equal_means) "QUEENS" = some 300 ∧
    avg_dispatch_sec (clean_dataset raws_equal_means) "BRONX" = some 300 ∧
    speed_score (clean_dataset raws_equal_means) "QUEENS" = none ∧
    speed_score (clean_dataset raws_equal_means) "BRONX" = none := by
  have hq : avg_dispatch_sec (clean_dataset raws_equal_means) "QUEENS" = some 300 := by
    simp [avg_dispatch_sec, meanQ, dispatches, recs, clean_dataset, raws_equal_means,
      cleanRecord, toNumeric]
    norm_num [round2, roundHalfEven]
  have hb : avg_dispatch_sec (clean_dataset raws_equal_means) "BRONX" = some 300 := by
    simp [avg_dispatch_sec, meanQ, dispatches, recs, clean_dataset, raws_equal_means,
      cleanRecord, toNumeric]
    norm_num [round2, roundHalfEven]
  have hcol : col_avg (clean_dataset raws_equal_means) = [300, 300] := by
    simp [col_avg, boroughs, clean_dataset, raws_equal_means, cleanRecord, toNumeric,
      avg_dispatch_sec, meanQ, dispatches, recs]
    norm_num [round2, roundHalfEven]
  refine ⟨hq, hb, ?_, ?_⟩
  · unfold speed_score
    rw [hq, hcol]
    norm_num [listMin, listMax]
  · unfold speed_score
    rw [hb, hcol]
    norm_num [listMin, listMax]

/-! Correlation-matrix lemmas. -/

/-- Pointwise product of a list with itself is the list of squares. -/
theorem zipWith_mul_self (l : List ℚ) :
    List.zipWith (· * ·) l l = l.map (fun b => b * b) := by
  induction l with
  | nil => rfl
  | cons x xs ih => simp [ih]

/-- Expansion of a sum of squared differences. -/
theorem sum_sq_sub (a : ℚ) (l : List ℚ) :
    (l.map (fun b => (a - b) * (a - b))).sum
      = (l.length : ℚ) * (a * a) - 2 * a * l.sum + (l.map (fun b => b * b)).sum := by
  induction l with
  | nil => simp
  | cons x xs ih =>
    simp only [List.map_cons, List.sum_cons, List.length_cons, ih]
    push_cast
    ring

/-- Adding one value changes the unnormalized variance by the sum of its
squared differences with the rest. -/
theorem varZ_cons (a : ℚ) (l : List ℚ) :
    varZ (a :: l) = varZ l + (l.map (fun b => (a - b) * (a - b))).sum := by
  unfold varZ covZ
  simp only [List.zipWith_cons_cons, List.sum_cons, List.length_cons, zipWith_mul_self]
  rw [sum_sq_sub]
  push_cast
  ring

/-- The unnormalized variance is nonnegative. -/
theorem varZ_nonneg (l : List ℚ) : 0 ≤ varZ l := by
  induction l with
  | nil => norm_num [varZ, covZ]
  | cons x xs ih =>
    rw [varZ_cons]
    have hs : 0 ≤ (xs.map (fun b => (x - b) * (x - b))).sum := by
      apply List.sum_nonneg
      intro y hy
      obtain ⟨b, _, rfl⟩ := List.mem_map.mp hy
      exact mul_self_nonneg _
    linarith

/-- In a list of nonnegative values summing to zero, every value is 0. -/
theorem sum_zero_of_nonneg {l : List ℚ} (h0 : ∀ x ∈ l, 0 ≤ x) (hs : l.sum = 0) :
    ∀ x ∈ l, x = 0 := by
  induction l with
  | nil => simp
  | cons y ys ih =>
    have hy : 0 ≤ y := h0 y (List.mem_cons_self _ _)
    have hys : 0 ≤ ys.sum :=
      List.sum_nonneg (fun x hx => h0 x (List.mem_cons_of_mem _ hx))
    rw [List.sum_cons] at hs
    intro x hx
    rcases List.mem_cons.mp hx with rfl | hx2
    · linarith
    · exact ih (fun z hz => h0 z (List.mem_cons_of_mem _ hz)) (by linarith) x hx2

/-- The unnormalized variance vanishes exactly on constant lists. -/
theorem varZ_eq_zero_iff (l : List ℚ) :
    varZ l = 0 ↔ ∀ a ∈ l, ∀ b ∈ l, a = b := by
  induction l with
  | nil => simp [varZ, covZ]
  | cons x xs ih =>
    rw [varZ_cons]
    constructor
    · intro h
      have h1 : 0 ≤ varZ xs := varZ_nonneg xs
      have h2 : 0 ≤ (xs.map (fun b => (x - b) * (x - b))).sum := by
        apply List.sum_nonneg
        intro y hy
        obtain ⟨b, _, rfl⟩ := List.mem_map.mp hy
        exact mul_self_nonneg _
      have hv : varZ xs = 0 := by linarith
      have hs : (xs.map (fun b => (x - b) * (x - b))).sum = 0 := by linarith
      have hall : ∀ b ∈ xs, x = b := by
        intro b hb
        have hmem : (x - b) * (x - b) ∈ xs.map (fun b => (x - b) * (x - b)) :=
          List.mem_map_of_mem _ hb
        have hz : (x - b) * (x - b) = 0 := by
          apply sum_zero_of_nonneg _ hs _ hmem
          intro y hy
          obtain ⟨c, _, rfl⟩ := List.mem_map.mp hy
          exact mul_self_nonneg _
        have := mul_self_eq_zero.mp hz
        linarith
      intro a ha c hc
      rcases List.mem_cons.mp ha with rfl | ha2 <;> rcases List.mem_cons.mp hc with rfl | hc2
      · rfl
      · exact hall c hc2
      · exact (hall a ha2).symm
      · exact (ih.mp hv) a ha2 c hc2
    · intro h
      have hv : varZ xs = 0 :=
        ih.mpr (fun a ha b hb =>
          h a (List.mem_cons_of_mem _ ha) b (List.mem_cons_of_mem _ hb))
      have hs : (xs.map (fun b => (x - b) * (x - b))).sum = 0 := by
        apply List.sum_eq_zero
        intro y hy
        obtain ⟨b, hb, rfl⟩ := List.mem_map.mp hy
        have hxb : x = b :=
          h x (List.mem_cons_self _ _) b (List.mem_cons_of_mem _ hb)
        rw [← hxb]
        ring
      rw [hv, hs]
      ring

/-- The unnormalized covariance is symmetric for equal-length lists. -/
theorem covZ_comm {xs ys : List ℚ} (hlen : xs.length = ys.length) :
    covZ xs ys = covZ ys xs := by
  unfold covZ
  rw [hlen, List.zipWith_comm_of_comm _ mul_comm]
  ring

/-- The correlation entry is symmetric for equal-length lists. -/
theorem pearson_comm {xs ys : List ℚ} (hlen : xs.length = ys.length) :
    pearson xs ys = pearson ys xs := by
  unfold pearson
  by_cases h : varZ xs = 0 ∨ varZ ys = 0
  · rw [if_pos h, if_pos h.symm]
  · rw [if_neg h, if_neg (fun hc => h hc.symm)]
    rw [covZ_comm hlen, mul_comm]

/-- Every master-table column has one entry per borough. -/
theorem masterCol_length (ds : List CleanRecord) (i : Fin 5) :
    (masterCol ds i).length = (boroughs ds).length := by
  fin_cases i <;>
    simp [masterCol, col_avg, col_calls, col_m5, col_m8, col_extreme]

/-- Claim C5: the Pearson correlation matrix of the five master-table
columns is symmetric; a diagonal entry is the real number 1 whenever its
column is non-constant across boroughs; and every entry involving a
column that is constant across boroughs is the absent value (NaN), not
zero. An entry `some (c, d)` denotes the real number `c / √d`. -/
theorem corr_matrix_props (ds : List CleanRecord) (i j : Fin 5) :
    corr_matrix ds i j = corr_matrix ds j i ∧
    ((∃ a ∈ masterCol ds i, ∃ c ∈ masterCol ds i, a ≠ c) →
      (corr_matrix ds i i).map (fun p => (p.1 : ℝ) / Real.sqrt ((p.2 : ℚ) : ℝ)) = some 1) ∧
    ((∀ a ∈ masterCol ds i, ∀ c ∈ masterCol ds i, a = c) →
      corr_matrix ds i j = none ∧ corr_matrix ds j i = none) := by
  refine ⟨?_, ?_, ?_⟩
  · apply pearson_comm
    rw [masterCol_length, masterCol_length]
  · intro hnc
    have hv : varZ (masterCol ds i) ≠ 0 := by
      intro h0
      obtain ⟨a, ha, c, hc, hac⟩ := hnc
      exact hac ((varZ_eq_zero_iff _).mp h0 a ha c hc)
    unfold corr_matrix pearson
    rw [if_neg (by simp [hv] : ¬(varZ (masterCol ds i) = 0 ∨ varZ (masterCol ds i) = 0))]
    simp only [Option.map_some']
    congr 1
    have hvr : (0 : ℝ) ≤ ((varZ (masterCol ds i) : ℚ) : ℝ) := by
      exact_mod_cast varZ_nonneg (masterCol ds i)
    have hcast : (((varZ (masterCol ds i) * varZ (masterCol ds i)) : ℚ) : ℝ)
        = ((varZ (masterCol ds i) : ℚ) : ℝ) * ((varZ (masterCol ds i) : ℚ) : ℝ) := by
      push_cast
      ring
    show ((covZ (masterCol ds i) (masterCol ds i) : ℚ) : ℝ)
        / Real.sqrt (((varZ (masterCol ds i) * varZ (masterCol ds i)) : ℚ) : ℝ) = 1
    rw [hcast, Real.sqrt_mul_self hvr]
    have hcv : covZ (masterCol ds i) (masterCol ds i) = varZ (masterCol ds i) := rfl
    rw [hcv]
    apply div_self
    exact_mod_cast hv
  · intro hc
    have hv : varZ (masterCol ds i) = 0 := (varZ_eq_zero_iff _).mpr hc
    unfold corr_matrix pearson
    exact ⟨if_pos (Or.inl hv), if_pos (Or.inr hv)⟩

/-- Witness for claim C5: symmetry and unit diagonal on the demo dataset
(non-constant mean column), absent entry on the equal-means dataset
(constant mean column). -/
theorem corr_matrix_props_witness :
    corr_matrix (clean_dataset raws_demo) 0 1 = corr_matrix (clean_dataset raws_demo) 1 0 ∧
    (corr_matrix (clean_dataset raws_demo) 0 0).map
        (fun p => (p.1 : ℝ) / Real.sqrt ((p.2 : ℚ) : ℝ)) = some 1 ∧
    corr_matrix (clean_dataset raws_equal_means) 0 1 = none := by
  have hcol : masterCol (clean_dataset raws_demo) 0 = [300, 700] := by
    show col_avg (clean_dataset raws_demo) = [300, 700]
    simp [col_avg, boroughs, clean_dataset, raws_demo, cleanRecord, toNumeric,
      avg_dispatch_sec, meanQ, dispatches, recs]
    norm_num [round2, roundHalfEven]
  have hcol2 : masterCol (clean_dataset raws_equal_means) 0 = [300, 300] := by
    show col_avg (clean_dataset raws_equal_means) = [300, 300]
    simp [col_avg, boroughs, clean_dataset, raws_equal_means, cleanRecord, toNumeric,
      avg_dispatch_sec, meanQ, dispatches, recs]
    norm_num [round2, roundHalfEven]
  refine ⟨(corr_matrix_props (clean_dataset raws_demo) 0 1).1,
          (corr_matrix_props (clean_dataset raws_demo) 0 1).2.1 ?_,
          ((corr_matrix_props (clean_dataset raws_equal_means) 0 1).2.2 ?_).1⟩
  · rw [hcol]
    exact ⟨300, by norm_num, 700, by norm_num, by norm_num⟩
  · rw [hcol2]
    intro a ha c hc
    simp at ha hc
    rw [ha, hc]
